import Mathlib

/-!
Verification of the PixelPress content-aware region-reconstruction engine
(server-side inpainting pipeline) against its natural-language specification.

The TypeScript sources are embedded shallowly:
* pixel rectangles (`Region`, `Size`) use `ℤ` coordinates;
* raw pixel buffers are `List ℕ` (one byte per entry) or, where a routine is
  analysed per pixel, functions from coordinates to byte values;
* JavaScript number arithmetic is modelled over `ℚ` where the source only
  uses field operations and `Math.floor`, and over `ℝ` where it uses
  transcendental functions (`Math.exp`, `Math.log10`, `Math.sin`, ...);
* `sharp`'s `extract` raises `extract_area: bad extract area` whenever the
  requested window leaves the image; this is modelled by `sharpExtract`
  returning `Except`.
-/

namespace PixelPress

/-- Integer pixel rectangle, mirroring the `Region`/`WatermarkArea` shape
`{x, y, width, height}` of `shared/types`. -/
structure Region where
  x : ℤ
  y : ℤ
  width : ℤ
  height : ℤ
deriving DecidableEq, Repr

/-- Image size `{width, height}`. -/
structure Size where
  width : ℤ
  height : ℤ
deriving DecidableEq, Repr

/-- Embedding of `isRegionValid` (imageProcessor utils): the Region invariant
`x,y ≥ 0`, `width,height > 0`, `x+width ≤ W`, `y+height ≤ H`. -/
def isRegionValid (r : Region) (s : Size) : Prop :=
  0 ≤ r.x ∧ 0 ≤ r.y ∧
  r.x + r.width ≤ s.width ∧ r.y + r.height ≤ s.height ∧
  0 < r.width ∧ 0 < r.height

instance (r : Region) (s : Size) : Decidable (isRegionValid r s) := by
  unfold isRegionValid; infer_instance

/-- Embedding of `clampRegionToImage(region, imageSize)` from the image
processing utilities: the origin is clamped into `[0, W-1] × [0, H-1]` first,
then the extents are shrunk against the remaining span. -/
def clampRegionToImage (region : Region) (imageSize : Size) : Region :=
  let clampedX := max 0 (min region.x (imageSize.width - 1))
  let clampedY := max 0 (min region.y (imageSize.height - 1))
  let maxWidth := imageSize.width - clampedX
  let maxHeight := imageSize.height - clampedY
  { x := clampedX
    y := clampedY
    width := min region.width maxWidth
    height := min region.height maxHeight }

/-- Embedding of `expandRegion(region, expandBy)` from the image processing
utilities. -/
def expandRegion (region : Region) (expandBy : ℤ) : Region :=
  { x := max 0 (region.x - expandBy)
    y := max 0 (region.y - expandBy)
    width := region.width + 2 * expandBy
    height := region.height + 2 * expandBy }

/-- Model of `sharp`'s `.extract({left, top, width, height})`: succeeds only
when the requested window lies fully inside the `W × H` image, otherwise the
library raises `extract_area: bad extract area`. -/
def sharpExtract (W H : ℤ) (r : Region) : Except String Region :=
  if 0 ≤ r.x ∧ 0 ≤ r.y ∧ 0 < r.width ∧ 0 < r.height ∧
     r.x + r.width ≤ W ∧ r.y + r.height ≤ H then
    Except.ok r
  else
    Except.error "extract_area: bad extract area"

/-- Expanded context-analysis window computed by
`InpaintingEngine.analyzeContext`: origin moved up-left by 30 and clamped at
0, extents grown by 60 with no clamping against the image bounds. -/
def analyzeContextWindow (region : Region) : Region :=
  { x := max 0 (region.x - 30)
    y := max 0 (region.y - 30)
    width := region.width + 60
    height := region.height + 60 }

/-- Expanded edge-detection window computed by `EdgeFeatherer.detectEdges`:
±50 px, origin clamped at 0, extents `+100` with no clamping against the
image bounds. -/
def detectEdgesWindow (region : Region) : Region :=
  { x := max 0 (region.x - 50)
    y := max 0 (region.y - 50)
    width := region.width + 100
    height := region.height + 100 }

/-- Expanded noise-analysis window computed by
`NoiseMatchingEngine.analyzeLocalNoise`: ±20 px with origin clamped at 0 and
extents capped at `W - region.x + 20` / `H - region.y + 20`. -/
def analyzeLocalNoiseWindow (W H : ℤ) (region : Region) : Region :=
  { x := max 0 (region.x - 20)
    y := max 0 (region.y - 20)
    width := min (region.width + 40) (W - region.x + 20)
    height := min (region.height + 40) (H - region.y + 20) }

/-- Extraction performed by `analyzeContext` on a `W × H` image. -/
def analyzeContextExtract (W H : ℤ) (region : Region) : Except String Region :=
  sharpExtract W H (analyzeContextWindow region)

/-- Extraction performed by `detectEdges` on a `W × H` image. -/
def detectEdgesExtract (W H : ℤ) (region : Region) : Except String Region :=
  sharpExtract W H (detectEdgesWindow region)

/-- Extraction performed by `analyzeLocalNoise` on a `W × H` image. -/
def analyzeLocalNoiseExtract (W H : ℤ) (region : Region) : Except String Region :=
  sharpExtract W H (analyzeLocalNoiseWindow W H region)

/-- Embedding of the region-validation prologue of
`InpaintingEngine.processWatermarkRemoval` (the code executed before any
pixel work): the origin is floored and clamped at 0, the extents are floored,
capped at the remaining span and raised to at least 1, and the
`Invalid region bounds` error is thrown only if the resulting values fail the
`width ≤ 0 ∨ height ≤ 0 ∨ x ≥ W ∨ y ≥ H` test. -/
def validateRegionBounds (W H : ℤ) (ax ay aw ah : ℚ) : Except String Region :=
  let x := max 0 ⌊ax⌋
  let y := max 0 ⌊ay⌋
  let maxWidth := W - x
  let maxHeight := H - y
  let width := max 1 (min maxWidth ⌊aw⌋)
  let height := max 1 (min maxHeight ⌊ah⌋)
  if width ≤ 0 ∨ height ≤ 0 ∨ W ≤ x ∨ H ≤ y then
    Except.error "Invalid region bounds"
  else
    Except.ok { x := x, y := y, width := width, height := height }

/-- Helper: an `Except` value is an error. -/
def isError {ε α : Type} (e : Except ε α) : Prop :=
  match e with
  | Except.error _ => True
  | Except.ok _ => False

instance {ε α : Type} (e : Except ε α) : Decidable (isError e) := by
  unfold isError
  cases e <;> infer_instance

instance {ε α : Type} [DecidableEq ε] [DecidableEq α] :
    DecidableEq (Except ε α) := fun a b =>
  match a, b with
  | Except.ok x, Except.ok y =>
      if h : x = y then isTrue (by rw [h])
      else isFalse (by intro hc; injection hc; contradiction)
  | Except.ok _, Except.error _ => isFalse (by intro hc; injection hc)
  | Except.error _, Except.ok _ => isFalse (by intro hc; injection hc)
  | Except.error x, Except.error y =>
      if h : x = y then isTrue (by rw [h])
      else isFalse (by intro hc; injection hc; contradiction)

/-- C1: for the spec's regression input — a 5×5 region at (0,0) in a 10×10
image, which satisfies the Region invariant — every internally expanded
analysis window of the reconstruction pipeline (±30 context window, ±50
edge-detection window, ±20 noise-analysis window) exceeds the image bounds,
so the corresponding `sharp` extract raises `extract_area: bad extract area`
instead of succeeding after clamping.  This refutes the claimed bounds
invariant at a concrete input and exhibits the repository's known
extract-bounds defect. -/
theorem C1_expanded_windows_escape_bounds :
    isRegionValid ⟨0, 0, 5, 5⟩ ⟨10, 10⟩ ∧
    analyzeContextExtract 10 10 ⟨0, 0, 5, 5⟩ =
      Except.error "extract_area: bad extract area" ∧
    detectEdgesExtract 10 10 ⟨0, 0, 5, 5⟩ =
      Except.error "extract_area: bad extract area" ∧
    analyzeLocalNoiseExtract 10 10 ⟨0, 0, 5, 5⟩ =
      Except.error "extract_area: bad extract area" ∧
    (analyzeContextWindow ⟨0, 0, 5, 5⟩).width = 65 := by
  decide

/-- C4 counterexample: a request with width = height = −5 on a 10×10 image is
not rejected — the validation prologue silently clamps both extents up to 1
and succeeds, although the claim demands a synchronous invalid-region
error for every non-positive width or height. -/
theorem C4_nonpositive_extent_not_rejected :
    validateRegionBounds 10 10 0 0 (-5) (-5) = Except.ok ⟨0, 0, 1, 1⟩ := by
  decide

/-- C4 (amended): the validation prologue of `processWatermarkRemoval` raises
the invalid-region error exactly when the floored, zero-clamped origin lies
at or beyond the image bounds; non-positive widths and heights are silently
clamped up to 1 and never rejected. -/
theorem C4_invalid_region_error_iff_origin_outside
    (W H : ℤ) (ax ay aw ah : ℚ) :
    isError (validateRegionBounds W H ax ay aw ah) ↔
      (W ≤ max 0 ⌊ax⌋ ∨ H ≤ max 0 ⌊ay⌋) := by
  simp only [validateRegionBounds]
  split
  · rename_i h
    simp only [isError, true_iff]
    rcases h with h | h | h | h
    · exact absurd h (by
        have : (1 : ℤ) ≤ max 1 (min (W - max 0 ⌊ax⌋) ⌊aw⌋) := le_max_left 1 _
        omega)
    · exact absurd h (by
        have : (1 : ℤ) ≤ max 1 (min (H - max 0 ⌊ay⌋) ⌊ah⌋) := le_max_left 1 _
        omega)
    · exact Or.inl h
    · exact Or.inr h
  · rename_i h
    simp only [isError, false_iff]
    intro hc
    exact h (by tauto)

/-- C5 counterexample: `clampRegionToImage` applied to the degenerate region
`{x:0, y:0, width:0, height:0}` on a 10×10 image returns a region of width 0,
violating the claimed `width > 0` postcondition. -/
theorem C5_zero_extent_not_repaired :
    clampRegionToImage ⟨0, 0, 0, 0⟩ ⟨10, 10⟩ = ⟨0, 0, 0, 0⟩ ∧
    ¬ isRegionValid (clampRegionToImage ⟨0, 0, 0, 0⟩ ⟨10, 10⟩) ⟨10, 10⟩ := by
  decide

/-- C5 (amended): for every input region with positive extents — the origin
may lie anywhere, including outside the image — and every image with positive
dimensions, `clampRegionToImage` returns a region satisfying the full Region
invariant (`x,y ≥ 0`, `width,height > 0`, `x+width ≤ W`, `y+height ≤ H`); it
computes this by clamping the origin into the image first and then shrinking
the extents against the remaining span.  Zero or negative input extents are
returned unrepaired. -/
theorem C5_clamp_invariant (region : Region) (imageSize : Size)
    (hW : 0 < imageSize.width) (hH : 0 < imageSize.height)
    (hw : 0 < region.width) (hh : 0 < region.height) :
    isRegionValid (clampRegionToImage region imageSize) imageSize := by
  unfold clampRegionToImage isRegionValid
  dsimp only
  omega

/-- C5 amended-claim witness at a concrete out-of-bounds origin. -/
theorem C5_clamp_invariant_witness :
    isRegionValid (clampRegionToImage ⟨-3, 20, 7, 9⟩ ⟨10, 10⟩) ⟨10, 10⟩ :=
  C5_clamp_invariant ⟨-3, 20, 7, 9⟩ ⟨10, 10⟩ (by decide) (by decide)
    (by decide) (by decide)

/-! ### Method selection (InpaintingEngine.determineInpaintingMethod) -/

/-- The four inpainting method tags. -/
inductive InpaintingMethod where
  | basic
  | textureSynthesis
  | patchBased
  | hybrid
deriving DecidableEq, Repr

/-- Embedding of `InpaintingEngine.determineInpaintingMethod`: the
`if/else if` cascade over the four context statistics. -/
def determineInpaintingMethod (textureComplexity edgeStrength colorVariation
    patternRepetition : ℚ) : InpaintingMethod :=
  if textureComplexity > 0.7 ∧ patternRepetition > 0.6 then
    InpaintingMethod.textureSynthesis
  else if edgeStrength > 0.6 then
    InpaintingMethod.patchBased
  else if textureComplexity > 0.5 ∨ colorVariation > 0.6 then
    InpaintingMethod.hybrid
  else
    InpaintingMethod.basic

/-- First-match evaluation of an ordered rule list, defaulting to `basic`;
used to state the spec's "evaluated in this order — first match wins"
formulation of method selection. -/
def firstMatch : List (Bool × InpaintingMethod) → InpaintingMethod
  | [] => InpaintingMethod.basic
  | (c, m) :: rest => if c then m else firstMatch rest

/-- Modelled from the spec words of §4.2: the ordered rule list
1. `textureComplexity > 0.7 AND patternRepetition > 0.6` → texture-synthesis,
2. `edgeStrength > 0.6` → patch-based,
3. `textureComplexity > 0.5 OR colorVariation > 0.6` → hybrid,
4. else basic — evaluated first-match-wins. -/
def recommendedMethodSpec (textureComplexity edgeStrength colorVariation
    patternRepetition : ℚ) : InpaintingMethod :=
  firstMatch
    [ (decide (textureComplexity > 0.7) && decide (patternRepetition > 0.6),
        InpaintingMethod.textureSynthesis),
      (decide (edgeStrength > 0.6), InpaintingMethod.patchBased),
      (decide (textureComplexity > 0.5) || decide (colorVariation > 0.6),
        InpaintingMethod.hybrid) ]

/-- C3: the recommended method is a pure function of the four context
statistics, computed exactly as the spec's ordered first-match rule list, and
the four sample inputs evaluate to texture-synthesis, patch-based, hybrid and
basic respectively. -/
theorem C3_method_selection :
    (∀ tc es cv pr : ℚ,
      determineInpaintingMethod tc es cv pr = recommendedMethodSpec tc es cv pr) ∧
    determineInpaintingMethod 0.8 0.2 0.1 0.7 = InpaintingMethod.textureSynthesis ∧
    determineInpaintingMethod 0.2 0.7 0.1 0.1 = InpaintingMethod.patchBased ∧
    determineInpaintingMethod 0.55 0.1 0.2 0.1 = InpaintingMethod.hybrid ∧
    determineInpaintingMethod 0.1 0.1 0.1 0.1 = InpaintingMethod.basic := by
  refine ⟨fun tc es cv pr => ?_,
    by norm_num [determineInpaintingMethod],
    by norm_num [determineInpaintingMethod],
    by norm_num [determineInpaintingMethod],
    by norm_num [determineInpaintingMethod]⟩
  simp only [determineInpaintingMethod, recommendedMethodSpec, firstMatch,
    Bool.and_eq_true, Bool.or_eq_true, decide_eq_true_eq]

/-! ### Noise blending (NoiseMatchingEngine.blendNoiseWithContent) -/

/-- Embedding of `NoiseMatchingEngine.blendNoiseWithContent`: throws when the
two buffers differ in length, otherwise blends byte-wise with the blend
strength clamped into `[0, 1]`, flooring each result. -/
def blendNoiseWithContent (content noise : List ℕ) (blendStrength : ℚ) :
    Except String (List ℤ) :=
  if content.length ≠ noise.length then
    Except.error "Content and noise buffers must have the same length"
  else
    let alpha := max 0 (min 1 blendStrength)
    Except.ok ((List.range content.length).map fun i =>
      ⌊(content.getD i 0 : ℚ) * (1 - alpha) + (noise.getD i 0 : ℚ) * alpha⌋)

/-- C10: `blendNoiseWithContent` errors exactly when the buffers differ in
length; on success it returns a buffer of the same length whose `i`-th byte
is `⌊content[i]·(1−α) + noise[i]·α⌋` with `α` the blend strength clamped
into `[0,1]` — in particular an out-of-range blend strength is silently
clamped, never rejected. -/
theorem C10_blend_noise_with_content (content noise : List ℕ)
    (blendStrength : ℚ) :
    (isError (blendNoiseWithContent content noise blendStrength) ↔
      content.length ≠ noise.length) ∧
    (content.length = noise.length →
      blendNoiseWithContent content noise blendStrength =
        Except.ok ((content.zip noise).map fun p =>
          ⌊(p.1 : ℚ) * (1 - max 0 (min 1 blendStrength)) +
            (p.2 : ℚ) * max 0 (min 1 blendStrength)⌋)) ∧
    blendNoiseWithContent content noise blendStrength =
      blendNoiseWithContent content noise (max 0 (min 1 blendStrength)) := by
  refine ⟨?_, ?_, ?_⟩
  · unfold blendNoiseWithContent
    by_cases h : content.length = noise.length <;> simp [h, isError]
  · intro hlen
    unfold blendNoiseWithContent
    rw [if_neg (by omega)]
    dsimp only
    congr 1
    have hzlen : (content.zip noise).length = content.length := by
      simp [List.length_zip, hlen]
    apply List.ext_getElem
    · simp [hzlen]
    · intro i h1 h2
      have hi : i < content.length := by simpa using h1
      have hin : i < noise.length := by omega
      have hiz : i < (content.zip noise).length := by omega
      simp only [List.getElem_map, List.getElem_range, List.getElem_zip]
      rw [List.getD_eq_getElem content 0 hi, List.getD_eq_getElem noise 0 hin]
  · unfold blendNoiseWithContent
    by_cases h : content.length = noise.length <;>
      simp [h, max_comm, min_comm, min_assoc, min_self, max_assoc, max_self]

/-- C10 witness: for `content = [10, 20]`, `noise = [30, 40]` and the
out-of-range blend strength 2, the lengths agree and the blend succeeds with
the strength clamped to 1. -/
theorem C10_blend_noise_with_content_witness :
    blendNoiseWithContent [10, 20] [30, 40] 2 =
      Except.ok (([10, 20].zip [30, 40]).map fun p =>
        ⌊(p.1 : ℚ) * (1 - max 0 (min 1 (2 : ℚ))) +
          (p.2 : ℚ) * max 0 (min 1 (2 : ℚ))⌋) :=
  (C10_blend_noise_with_content [10, 20] [30, 40] 2).2.1 rfl

/-! ### Compositing (InpaintingEngine.blendWithOriginal)

Buffers are modelled by their pixel accessors: the original image and the
reconstructed content are functions from coordinates (and channel) to byte
values, the one-byte-per-pixel feather mask from coordinates to byte
values. -/

/-- Whether pixel `(x, y)` lies inside the region (the test used by
`EdgeFeatherer.isInsideRegion` and by `sharp` when compositing the
`region.width × region.height` overlay at `(region.x, region.y)`). -/
def insideRegion (r : Region) (x y : ℤ) : Prop :=
  r.x ≤ x ∧ x < r.x + r.width ∧ r.y ≤ y ∧ y < r.y + r.height

instance (r : Region) (x y : ℤ) : Decidable (insideRegion r x y) := by
  unfold insideRegion; infer_instance

/-- Embedding of `InpaintingEngine.blendWithOriginal`: the inpainted content
is wrapped as a raw `region.width × region.height` 3-channel image and
composited with `blend: 'over'` at `(region.x, region.y)`.  The raw overlay
has no alpha channel, so `over` replaces every pixel of the region; the
`_featherMask` argument is accepted but never read. -/
def blendWithOriginal (originalImage : ℤ → ℤ → ℕ → ℕ)
    (inpaintedContent : ℤ → ℤ → ℕ → ℕ) (region : Region)
    (_featherMask : ℤ → ℤ → ℕ) : ℤ → ℤ → ℕ → ℕ :=
  fun x y c =>
    if insideRegion region x y then
      inpaintedContent (x - region.x) (y - region.y) c
    else
      originalImage x y c

/-- Modelled from the spec: compositing "through the feather mask", i.e. a
mask-weighted per-pixel blend of reconstructed content and original pixel,
`(content·m + original·(255−m)) / 255`. -/
def featherCompositeSpec (originalImage : ℤ → ℤ → ℕ → ℕ)
    (inpaintedContent : ℤ → ℤ → ℕ → ℕ) (region : Region)
    (featherMask : ℤ → ℤ → ℕ) : ℤ → ℤ → ℕ → ℚ :=
  fun x y c =>
    if insideRegion region x y then
      ((inpaintedContent (x - region.x) (y - region.y) c : ℚ) *
          featherMask x y +
        (originalImage x y c : ℚ) * (255 - (featherMask x y : ℚ))) / 255
    else
      (originalImage x y c : ℚ)

/-- C2 counterexample: with a black original, a content value of 200 and a
feather-mask value of 100 (< 255, i.e. well below full opacity) at the pixel
(0,0) of a 1×1 region, `blendWithOriginal` outputs the content value 200
unchanged — the original pixel contributes nothing and the output differs
from the mask-weighted blend (≈ 78) demanded by the claim. -/
theorem C2_feather_mask_ignored_counterexample :
    (fun _ _ => 100 : ℤ → ℤ → ℕ) 0 0 < 255 ∧
    blendWithOriginal (fun _ _ _ => 0) (fun _ _ _ => 200) ⟨0, 0, 1, 1⟩
      (fun _ _ => 100) 0 0 0 = 200 ∧
    (blendWithOriginal (fun _ _ _ => 0) (fun _ _ _ => 200) ⟨0, 0, 1, 1⟩
        (fun _ _ => 100) 0 0 0 : ℚ) ≠
      featherCompositeSpec (fun _ _ _ => 0) (fun _ _ _ => 200) ⟨0, 0, 1, 1⟩
        (fun _ _ => 100) 0 0 0 := by
  refine ⟨by norm_num, ?_, ?_⟩
  · simp [blendWithOriginal, insideRegion]
  · simp only [blendWithOriginal, featherCompositeSpec,
      if_pos (by decide : insideRegion ⟨0, 0, 1, 1⟩ 0 0)]
    norm_num

/-- C2 (amended): for every inpainting method the synthesized content is
composited opaquely over the original inside the region — the output pixel
equals the reconstructed content at every pixel of the region and the
original pixel elsewhere — and the computed feather mask (adaptive or
fixed-radius) is passed to `blendWithOriginal` but ignored: the output is
identical for any two masks. -/
theorem C2_composite_opaque_and_mask_independent
    (originalImage inpaintedContent : ℤ → ℤ → ℕ → ℕ) (region : Region)
    (mask1 mask2 : ℤ → ℤ → ℕ) :
    blendWithOriginal originalImage inpaintedContent region mask1 =
      blendWithOriginal originalImage inpaintedContent region mask2 ∧
    (∀ x y c, insideRegion region x y →
      blendWithOriginal originalImage inpaintedContent region mask1 x y c =
        inpaintedContent (x - region.x) (y - region.y) c) ∧
    (∀ x y c, ¬ insideRegion region x y →
      blendWithOriginal originalImage inpaintedContent region mask1 x y c =
        originalImage x y c) := by
  refine ⟨rfl, fun x y c h => ?_, fun x y c h => ?_⟩
  · simp [blendWithOriginal, h]
  · simp [blendWithOriginal, h]

/-- C2 amended-claim witness: concrete images, region, masks and pixels. -/
theorem C2_composite_opaque_and_mask_independent_witness :
    blendWithOriginal (fun _ _ _ => 7) (fun _ _ _ => 9) ⟨1, 1, 2, 2⟩
        (fun _ _ => 0) =
      blendWithOriginal (fun _ _ _ => 7) (fun _ _ _ => 9) ⟨1, 1, 2, 2⟩
        (fun _ _ => 255) ∧
    blendWithOriginal (fun _ _ _ => 7) (fun _ _ _ => 9) ⟨1, 1, 2, 2⟩
        (fun _ _ => 0) 1 1 0 = 9 ∧
    blendWithOriginal (fun _ _ _ => 7) (fun _ _ _ => 9) ⟨1, 1, 2, 2⟩
        (fun _ _ => 0) 0 0 0 = 7 := by
  obtain ⟨h1, h2, h3⟩ := C2_composite_opaque_and_mask_independent
    (fun _ _ _ => 7) (fun _ _ _ => 9) ⟨1, 1, 2, 2⟩ (fun _ _ => 0)
    (fun _ _ => 255)
  exact ⟨h1, h2 1 1 0 (by decide), h3 0 0 0 (by decide)⟩

/-! ### Texture synthesis (TextureAnalyzer.generateTextureSynthesis)

`Math.random()` is modelled by an explicit stream `rand : ℕ → ℚ` of values
in `[0, 1)`, consumed in call order: the source draws three values per pixel
(R, G, B) while scanning the 64×64 swatch row-major, so pixel `(x, y)`
channel `c` consumes draw number `3·(y·64 + x) + c`. -/

/-- Descriptor fields read by the synthesis loop: per-channel color means,
the dominant-frequency table and the LBP histogram. -/
structure TextureDescriptorData where
  meanR : ℚ
  meanG : ℚ
  meanB : ℚ
  dominantFrequencies : List ℚ
  localBinaryPatterns : List ℚ
deriving DecidableEq

/-- Embedding of `TextureAnalyzer.getTextureInfluence`. -/
def getTextureInfluence (d : TextureDescriptorData) (x y : ℕ) : ℚ :=
  let normalizedFreq :=
    d.dominantFrequencies.getD ((x + y) % d.dominantFrequencies.length) 0 / 255
  let normalizedLBP :=
    d.localBinaryPatterns.getD ((x * y) % d.localBinaryPatterns.length) 0 / 255
  (normalizedFreq + normalizedLBP) / 2

/-- Embedding of `TextureAnalyzer.generateTextureSynthesis`, as the pixel
accessor of the synthesized 64×64 RGB swatch: each output byte blends the
channel's mean color with a fresh random draw scaled to `[0, 255)`, weighted
by the texture influence at that pixel. -/
def generateTextureSynthesis (d : TextureDescriptorData) (rand : ℕ → ℚ)
    (x y c : ℕ) : ℤ :=
  let textureInfluence := getTextureInfluence d x y
  let noise := rand (3 * (y * 64 + x) + c) * 255
  let mean := if c = 0 then d.meanR else if c = 1 then d.meanG else d.meanB
  ⌊mean * (1 - textureInfluence) + noise * textureInfluence⌋

/-- C9 counterexample: for a fixed descriptor (fixed image, region and
options) whose frequency and LBP tables give texture influence 1, two
executions whose `Math.random()` streams return 0 and 0.9 respectively
produce bytes 0 and 229 at pixel (0,0,R) — the texture-synthesis pipeline
output is not a function of image/region/options alone, even with noise
matching disabled. -/
theorem C9_texture_synthesis_random_counterexample :
    generateTextureSynthesis ⟨0, 0, 0, [255], [255]⟩ (fun _ => 0) 0 0 0 = 0 ∧
    generateTextureSynthesis ⟨0, 0, 0, [255], [255]⟩ (fun _ => 9/10) 0 0 0 = 229 ∧
    generateTextureSynthesis ⟨0, 0, 0, [255], [255]⟩ (fun _ => 0) ≠
      generateTextureSynthesis ⟨0, 0, 0, [255], [255]⟩ (fun _ => 9/10) := by
  refine ⟨?_, ?_, ?_⟩
  · norm_num [generateTextureSynthesis, getTextureInfluence]
  · norm_num [generateTextureSynthesis, getTextureInfluence]
  · intro h
    have h0 := congrFun (congrFun (congrFun h 0) 0) 0
    rw [show generateTextureSynthesis ⟨0, 0, 0, [255], [255]⟩
        (fun _ => 0) 0 0 0 = 0 from by
      norm_num [generateTextureSynthesis, getTextureInfluence]] at h0
    rw [show generateTextureSynthesis ⟨0, 0, 0, [255], [255]⟩
        (fun _ => 9/10) 0 0 0 = 229 from by
      norm_num [generateTextureSynthesis, getTextureInfluence]] at h0
    exact absurd h0 (by norm_num)

/-- C9 (amended): the texture-synthesis output is a deterministic function of
its inputs and the `Math.random()` stream; it is independent of the random
stream precisely in the degenerate case where the texture influence vanishes
at every pixel (then every byte is the floored channel mean).  In general —
even with noise matching disabled — repeated calls draw fresh random values
and may differ. -/
theorem C9_texture_synthesis_deterministic_iff_influence_zero
    (d : TextureDescriptorData)
    (hzero : ∀ x y, getTextureInfluence d x y = 0)
    (rand1 rand2 : ℕ → ℚ) :
    generateTextureSynthesis d rand1 = generateTextureSynthesis d rand2 := by
  funext x y c
  unfold generateTextureSynthesis
  rw [hzero x y]
  norm_num

/-- C9 amended-claim witness: a descriptor with all-zero frequency and LBP
tables synthesizes the same swatch under two different random streams. -/
theorem C9_texture_synthesis_deterministic_witness :
    generateTextureSynthesis ⟨77, 88, 99, [0], [0]⟩ (fun _ => 0) =
      generateTextureSynthesis ⟨77, 88, 99, [0], [0]⟩ (fun _ => 1/2) :=
  C9_texture_synthesis_deterministic_iff_influence_zero ⟨77, 88, 99, [0], [0]⟩
    (fun x y => by simp [getTextureInfluence]) (fun _ => 0) (fun _ => 1/2)

/-! ### Feather masks (EdgeFeatherer.createFeatherMask) -/

/-- Embedding of `EdgeFeatherer.distanceToRegionEdge`: minimum of the signed
distances to the four region edges. -/
def distanceToRegionEdge (region : Region) (x y : ℤ) : ℤ :=
  min (min (x - region.x) (region.x + region.width - x))
    (min (y - region.y) (region.y + region.height - y))

/-- Embedding of `EdgeFeatherer.distanceToRegion`: Euclidean distance from a
pixel to the region's axis-aligned bounding box. -/
noncomputable def distanceToRegion (region : Region) (x y : ℤ) : ℝ :=
  let dx := max 0 (max (region.x - x) (x - (region.x + region.width)))
  let dy := max 0 (max (region.y - y) (y - (region.y + region.height)))
  Real.sqrt ((dx : ℝ) ^ 2 + (dy : ℝ) ^ 2)

/-- Embedding of `EdgeFeatherer.generateGaussianFalloff`. -/
noncomputable def generateGaussianFalloff (distance sigma : ℝ) : ℝ :=
  Real.exp (-((distance / sigma) ^ 2) / 2)

/-- Embedding of the per-pixel body of `EdgeFeatherer.createFeatherMask`
(the value stored at `maskPixels[y·W + x]`; the image size only fixes the
loop bounds and plays no role in the stored value). -/
noncomputable def featherMaskValue (region : Region) (featherRadius : ℝ)
    (x y : ℤ) : ℤ :=
  if insideRegion region x y then
    ⌊generateGaussianFalloff (distanceToRegionEdge region x y : ℝ)
        featherRadius * 255⌋
  else if distanceToRegion region x y ≤ featherRadius then
    ⌊(1 - generateGaussianFalloff
        (featherRadius - distanceToRegion region x y) featherRadius) * 255⌋
  else
    0

/-- C7 counterexample: for the region `{x:0, y:0, width:21, height:21}` with
feather radius 5, the mask holds 255 (full opacity) at the region-boundary
pixel (0,10) and a strictly smaller value (⌊255·e⁻²⌋) at the region center
(10,10): inside the region the Gaussian falloff of the code is anchored at
the edges, not at the center, so the claimed "full opacity at the region
center, fading near the edges" profile is reversed. -/
theorem C7_mask_full_at_edge_not_center :
    featherMaskValue ⟨0, 0, 21, 21⟩ 5 0 10 = 255 ∧
    featherMaskValue ⟨0, 0, 21, 21⟩ 5 10 10 < 255 := by
  constructor
  · unfold featherMaskValue
    rw [if_pos (by decide : insideRegion ⟨0, 0, 21, 21⟩ 0 10),
      show distanceToRegionEdge ⟨0, 0, 21, 21⟩ 0 10 = 0 from by decide]
    norm_num [generateGaussianFalloff]
  · unfold featherMaskValue
    rw [if_pos (by decide : insideRegion ⟨0, 0, 21, 21⟩ 10 10),
      show distanceToRegionEdge ⟨0, 0, 21, 21⟩ 10 10 = 10 from by decide]
    have hexp : generateGaussianFalloff ((10 : ℤ) : ℝ) 5 < 1 := by
      unfold generateGaussianFalloff
      rw [show (-((((10 : ℤ) : ℝ)) / 5) ^ 2 / 2) = -2 by push_cast; ring]
      exact Real.exp_lt_one_iff.mpr (by norm_num)
    have hpos : (0 : ℝ) < generateGaussianFalloff ((10 : ℤ) : ℝ) 5 :=
      Real.exp_pos _
    refine Int.floor_lt.mpr ?_
    push_cast at hexp hpos ⊢
    nlinarith

/-- C7 (amended): `createFeatherMask` produces, inside the region, a Gaussian
falloff of the distance to the nearest region edge that is FULL (255) at the
region boundary and fades monotonically toward the region center; outside the
region but within `featherRadius` of it, an inverted falloff yields a partial
value in `[0, 255)`; and every pixel farther than `featherRadius` from the
region has mask value 0. -/
theorem C7_mask_profile (region : Region) (featherRadius : ℝ)
    (hfr : 0 < featherRadius) :
    (∀ x y, insideRegion region x y → distanceToRegionEdge region x y = 0 →
      featherMaskValue region featherRadius x y = 255) ∧
    (∀ x1 y1 x2 y2, insideRegion region x1 y1 → insideRegion region x2 y2 →
      distanceToRegionEdge region x1 y1 ≤ distanceToRegionEdge region x2 y2 →
      featherMaskValue region featherRadius x2 y2 ≤
        featherMaskValue region featherRadius x1 y1) ∧
    (∀ x y, ¬ insideRegion region x y →
      distanceToRegion region x y ≤ featherRadius →
      0 ≤ featherMaskValue region featherRadius x y ∧
        featherMaskValue region featherRadius x y < 255) ∧
    (∀ x y, ¬ insideRegion region x y →
      featherRadius < distanceToRegion region x y →
      featherMaskValue region featherRadius x y = 0) := by
  have hedge_nonneg : ∀ x y, insideRegion region x y →
      (0 : ℤ) ≤ distanceToRegionEdge region x y := by
    intro x y h
    obtain ⟨h1, h2, h3, h4⟩ := h
    unfold distanceToRegionEdge
    omega
  refine ⟨?_, ?_, ?_, ?_⟩
  · intro x y hin hd
    unfold featherMaskValue
    rw [if_pos hin, hd]
    norm_num [generateGaussianFalloff]
  · intro x1 y1 x2 y2 hin1 hin2 hd
    unfold featherMaskValue
    rw [if_pos hin1, if_pos hin2]
    apply Int.floor_le_floor
    have h1 : (0 : ℝ) ≤ (distanceToRegionEdge region x1 y1 : ℝ) := by
      exact_mod_cast hedge_nonneg x1 y1 hin1
    have hdle : (distanceToRegionEdge region x1 y1 : ℝ) ≤
        (distanceToRegionEdge region x2 y2 : ℝ) := by exact_mod_cast hd
    have hq : (distanceToRegionEdge region x1 y1 : ℝ) / featherRadius ≤
        (distanceToRegionEdge region x2 y2 : ℝ) / featherRadius := by
      gcongr
    have hsq : ((distanceToRegionEdge region x1 y1 : ℝ) / featherRadius) ^ 2 ≤
        ((distanceToRegionEdge region x2 y2 : ℝ) / featherRadius) ^ 2 :=
      pow_le_pow_left₀ (div_nonneg h1 hfr.le) hq 2
    unfold generateGaussianFalloff
    exact mul_le_mul_of_nonneg_right
      (Real.exp_le_exp.mpr (by linarith)) (by norm_num)
  · intro x y hout hnear
    unfold featherMaskValue
    rw [if_neg hout, if_pos hnear]
    have hdist0 : (0 : ℝ) ≤ distanceToRegion region x y := by
      unfold distanceToRegion
      exact Real.sqrt_nonneg _
    have harg : -(((featherRadius - distanceToRegion region x y) /
        featherRadius) ^ 2) / 2 ≤ 0 := by
      have := sq_nonneg ((featherRadius - distanceToRegion region x y) /
        featherRadius)
      linarith
    have hle1 : generateGaussianFalloff
        (featherRadius - distanceToRegion region x y) featherRadius ≤ 1 := by
      unfold generateGaussianFalloff
      exact Real.exp_le_one_iff.mpr harg
    have hpos : 0 < generateGaussianFalloff
        (featherRadius - distanceToRegion region x y) featherRadius :=
      Real.exp_pos _
    constructor
    · exact Int.le_floor.mpr (by push_cast; nlinarith)
    · exact Int.floor_lt.mpr (by push_cast; nlinarith)
  · intro x y hout hfar
    unfold featherMaskValue
    rw [if_neg hout, if_neg (not_le.mpr hfar)]

/-- C7 amended-claim witness: for the region `{0,0,21,21}` at feather radius
5, the boundary pixel (0,10) is full, the center pixel (10,10) does not
exceed it, the just-outside pixel (0,−3) (distance 3) gets a partial value
in `[0,255)`, and the far pixel (100,100) (distance √12482 > 5) gets 0. -/
theorem C7_mask_profile_witness :
    featherMaskValue ⟨0, 0, 21, 21⟩ 5 0 10 = 255 ∧
    featherMaskValue ⟨0, 0, 21, 21⟩ 5 10 10 ≤
      featherMaskValue ⟨0, 0, 21, 21⟩ 5 0 10 ∧
    (0 ≤ featherMaskValue ⟨0, 0, 21, 21⟩ 5 0 (-3) ∧
      featherMaskValue ⟨0, 0, 21, 21⟩ 5 0 (-3) < 255) ∧
    featherMaskValue ⟨0, 0, 21, 21⟩ 5 100 100 = 0 := by
  obtain ⟨hb, hmono, hpartial, hzero⟩ :=
    C7_mask_profile ⟨0, 0, 21, 21⟩ 5 (by norm_num)
  have hd1 : distanceToRegion ⟨0, 0, 21, 21⟩ 0 (-3) = Real.sqrt 9 := by
    unfold distanceToRegion
    norm_num
  have hd2 : distanceToRegion ⟨0, 0, 21, 21⟩ 100 100 = Real.sqrt 12482 := by
    unfold distanceToRegion
    norm_num
  refine ⟨hb 0 10 (by decide) (by decide),
    hmono 0 10 10 10 (by decide) (by decide) (by decide),
    hpartial 0 (-3) (by decide) ?_, hzero 100 100 (by decide) ?_⟩
  · rw [hd1, show (9 : ℝ) = 3 ^ 2 by norm_num, Real.sqrt_sq (by norm_num)]
    norm_num
  · rw [hd2]
    exact (Real.lt_sqrt (by norm_num)).mpr (by norm_num)

/-! ### Advanced interpolation (AdvancedInterpolator)

Raw RGB buffers are `List ℕ`.  The source derives the side length of a
(square) source buffer as `Math.sqrt(length / 3)`; the engine only ever
passes square patches (16×16 patch blends, 64×64 swatches), for which this
is the integer `Nat.sqrt (length / 3)` used here.  JavaScript float
arithmetic is modelled over `ℝ`. -/

/-- Byte read `data[idx]` at an integer index, 0 outside the buffer. -/
def bufGet (data : List ℕ) (idx : ℤ) : ℝ :=
  if 0 ≤ idx then (data.getD idx.toNat 0 : ℝ) else 0

/-- Conversion `Math.floor(Math.max(0, Math.min(255, v)))` used to store a
float into a byte buffer. -/
noncomputable def byteClampFloor (v : ℝ) : ℕ :=
  (⌊max 0 (min 255 v)⌋).toNat

/-- Two-argument arctangent `Math.atan2(y, x)`, via the complex argument. -/
noncomputable def atan2 (y x : ℝ) : ℝ :=
  Complex.arg ⟨x, y⟩

/-- Embedding of `AdvancedInterpolator.cubic1D`. -/
noncomputable def cubic1D (v0 v1 v2 v3 t : ℝ) : ℝ :=
  let a := -0.5 * v0 + 1.5 * v1 - 1.5 * v2 + 0.5 * v3
  let b := v0 - 2.5 * v1 + 2 * v2 - 0.5 * v3
  let c := -0.5 * v0 + 0.5 * v2
  let d := v1
  a * t ^ 3 + b * t ^ 2 + c * t + d

/-- Embedding of `AdvancedInterpolator.cubicInterpolate`: 4×4 neighborhood
around `(x, y)`, edge-clamped, cubically interpolated per row then across
rows. -/
noncomputable def cubicInterpolate (data : List ℕ) (x y : ℝ)
    (width height : ℕ) (channel : ℕ) : ℝ :=
  let x0 := ⌊x⌋
  let y0 := ⌊y⌋
  let dx := x - x0
  let dy := y - y0
  let sampleAt : ℕ → ℕ → ℝ := fun j i =>
    let sampleX := max 0 (min ((width : ℤ) - 1) (x0 - 1 + i))
    let sampleY := max 0 (min ((height : ℤ) - 1) (y0 - 1 + j))
    bufGet data ((sampleY * width + sampleX) * 3 + channel)
  let row : ℕ → ℝ := fun j =>
    cubic1D (sampleAt j 0) (sampleAt j 1) (sampleAt j 2) (sampleAt j 3) dx
  cubic1D (row 0) (row 1) (row 2) (row 3) dy

/-- Embedding of `AdvancedInterpolator.bicubicInterpolation`: an empty source
list yields a neutral gray (128) buffer of the target size; otherwise the
first source buffer is resampled bicubically into the target rectangle. -/
noncomputable def bicubicInterpolation (sourceRegions : List (List ℕ))
    (targetRegion : Region) : List ℕ :=
  let width := targetRegion.width.toNat
  let height := targetRegion.height.toNat
  if sourceRegions = [] then
    List.replicate (width * height * 3) 128
  else
    let sourceData := sourceRegions.headD []
    let sourceWidth := Nat.sqrt (sourceData.length / 3)
    let sourceHeight := sourceWidth
    (List.range height).flatMap fun y =>
      (List.range width).flatMap fun x =>
        (List.range 3).map fun c =>
          byteClampFloor (cubicInterpolate sourceData
            ((x : ℝ) / width * sourceWidth) ((y : ℝ) / height * sourceHeight)
            sourceWidth sourceHeight c)

/-- Embedding of `AdvancedInterpolator.lanczosKernel` (radius 3 windowed
sinc). -/
noncomputable def lanczosKernel (x : ℝ) : ℝ :=
  if x = 0 then 1
  else if 3 ≤ |x| then 0
  else (3 * Real.sin (Real.pi * x) * Real.sin (Real.pi * x / 3)) /
    (Real.pi * x * (Real.pi * x))

/-- Embedding of `AdvancedInterpolator.lanczosInterpolation`: empty sources
degrade to the gray buffer; otherwise each target pixel is a kernel-weighted
average over the in-bounds 7×7 neighborhood, falling back to 128 when the
weight sum is not positive. -/
noncomputable def lanczosInterpolation (sourceRegions : List (List ℕ))
    (targetRegion : Region) : List ℕ :=
  let width := targetRegion.width.toNat
  let height := targetRegion.height.toNat
  if sourceRegions = [] then
    List.replicate (width * height * 3) 128
  else
    let sourceData := sourceRegions.headD []
    let sourceWidth := Nat.sqrt (sourceData.length / 3)
    let sourceHeight := sourceWidth
    (List.range height).flatMap fun y =>
      (List.range width).flatMap fun x =>
        (List.range 3).map fun c =>
          let srcX := (x : ℝ) / width * sourceWidth
          let srcY := (y : ℝ) / height * sourceHeight
          let inB : ℤ → ℤ → Prop := fun sampleX sampleY =>
            0 ≤ sampleX ∧ sampleX < sourceWidth ∧
            0 ≤ sampleY ∧ sampleY < sourceHeight
          let sum := ∑ ky ∈ Finset.Icc (-3 : ℤ) 3, ∑ kx ∈ Finset.Icc (-3 : ℤ) 3,
            if inB (⌊srcX⌋ + kx) (⌊srcY⌋ + ky) then
              lanczosKernel (srcX - (⌊srcX⌋ + kx)) *
                lanczosKernel (srcY - (⌊srcY⌋ + ky)) *
                bufGet sourceData
                  (((⌊srcY⌋ + ky) * sourceWidth + (⌊srcX⌋ + kx)) * 3 + c)
            else 0
          let weightSum := ∑ ky ∈ Finset.Icc (-3 : ℤ) 3,
            ∑ kx ∈ Finset.Icc (-3 : ℤ) 3,
            if inB (⌊srcX⌋ + kx) (⌊srcY⌋ + ky) then
              lanczosKernel (srcX - (⌊srcX⌋ + kx)) *
                lanczosKernel (srcY - (⌊srcY⌋ + ky))
            else 0
          if 0 < weightSum then byteClampFloor (sum / weightSum) else 128

/-- Embedding of the `direction` field of
`AdvancedInterpolator.computeEdgeMap`: central-difference gradients averaged
over the three channels, `atan2` direction at interior pixels, 0 at the
border (the `Float32Array` stays zero-initialized there). -/
noncomputable def computeEdgeMapDirection (data : List ℕ) (width height : ℕ)
    (x y : ℤ) : ℝ :=
  if 1 ≤ x ∧ x < (width : ℤ) - 1 ∧ 1 ≤ y ∧ y < (height : ℤ) - 1 then
    let gx := (∑ c ∈ Finset.range 3,
      (bufGet data ((y * width + (x + 1)) * 3 + c) -
        bufGet data ((y * width + (x - 1)) * 3 + c))) / 3
    let gy := (∑ c ∈ Finset.range 3,
      (bufGet data (((y + 1) * width + x) * 3 + c) -
        bufGet data (((y - 1) * width + x) * 3 + c))) / 3
    atan2 gy gx
  else 0

/-- Embedding of `AdvancedInterpolator.getEdgeDirection`: edge-map lookup at
the clamped, floored position. -/
noncomputable def getEdgeDirection (data : List ℕ) (width height : ℕ)
    (x y : ℝ) : ℝ :=
  computeEdgeMapDirection data width height
    ⌊max 0 (min ((width : ℝ) - 1) x)⌋ ⌊max 0 (min ((height : ℝ) - 1) y)⌋

/-- Embedding of `AdvancedInterpolator.interpolateAlongEdge`: averages up to
5 samples stepped along the edge direction, 128 when no sample lands inside
the source. -/
noncomputable def interpolateAlongEdge (data : List ℕ) (x y : ℝ)
    (width height : ℕ) (channel : ℕ) (edgeDirection : ℝ) : ℝ :=
  let dx := Real.cos edgeDirection * 0.5
  let dy := Real.sin edgeDirection * 0.5
  let inB : ℝ → ℝ → Prop := fun sampleX sampleY =>
    0 ≤ sampleX ∧ sampleX < width ∧ 0 ≤ sampleY ∧ sampleY < height
  let sum := ∑ i ∈ Finset.Icc (-2 : ℤ) 2,
    if inB (x + i * dx) (y + i * dy) then
      bufGet data ((⌊y + i * dy⌋ * width + ⌊x + i * dx⌋) * 3 + channel)
    else 0
  let count : ℕ := ∑ i ∈ Finset.Icc (-2 : ℤ) 2,
    if inB (x + i * dx) (y + i * dy) then 1 else 0
  if 0 < count then sum / count else 128

/-- Embedding of `AdvancedInterpolator.edgeDirectedInterpolation`: empty
sources degrade to the gray buffer; otherwise each target pixel is resampled
along the local edge direction of the source. -/
noncomputable def edgeDirectedInterpolation (sourceRegions : List (List ℕ))
    (targetRegion : Region) : List ℕ :=
  let width := targetRegion.width.toNat
  let height := targetRegion.height.toNat
  if sourceRegions = [] then
    List.replicate (width * height * 3) 128
  else
    let sourceData := sourceRegions.headD []
    let sourceWidth := Nat.sqrt (sourceData.length / 3)
    let sourceHeight := sourceWidth
    (List.range height).flatMap fun y =>
      (List.range width).flatMap fun x =>
        (List.range 3).map fun c =>
          let srcX := (x : ℝ) / width * sourceWidth
          let srcY := (y : ℝ) / height * sourceHeight
          byteClampFloor (interpolateAlongEdge sourceData srcX srcY
            sourceWidth sourceHeight c
            (getEdgeDirection sourceData sourceWidth sourceHeight srcX srcY))

/-- Diffused float value computed by the interior loop of
`AdvancedInterpolator.applyAnisotropicDiffusion` (the zero-initialized
`Float32Array` remains 0 at border pixels). -/
noncomputable def diffusedVal (buffer : List ℕ) (width height : ℕ)
    (kappa gamma : ℝ) (x y : ℤ) (c : ℕ) : ℝ :=
  if 1 ≤ x ∧ x < (width : ℤ) - 1 ∧ 1 ≤ y ∧ y < (height : ℤ) - 1 then
    let centerValue := bufGet buffer ((y * width + x) * 3 + c)
    let neighbors : List ℝ :=
      [bufGet buffer (((y - 1) * width + x) * 3 + c),
        bufGet buffer (((y + 1) * width + x) * 3 + c),
        bufGet buffer ((y * width + (x - 1)) * 3 + c),
        bufGet buffer ((y * width + (x + 1)) * 3 + c)]
    let diffusionSum := (neighbors.map fun neighbor =>
      Real.exp (-((neighbor - centerValue) * (neighbor - centerValue)) /
          (kappa * kappa)) *
        (neighbor - centerValue)).sum
    centerValue + gamma * diffusionSum
  else 0

open Classical in
/-- Embedding of `AdvancedInterpolator.applyAnisotropicDiffusion`: one
diffusion pass over the byte buffer; zero-valued float results fall back to
the input byte, and every float is clamp-floored back into a byte. -/
noncomputable def applyAnisotropicDiffusion (buffer : List ℕ)
    (width height : ℕ) (kappa gamma : ℝ) : List ℕ :=
  (List.range buffer.length).map fun i =>
    let c := i % 3
    let x := ((i / 3) % width : ℕ)
    let y := ((i / 3) / width : ℕ)
    let v := diffusedVal buffer width height kappa gamma x y c
    byteClampFloor (if v = 0 then (buffer.getD i 0 : ℝ) else v)

/-- Embedding of `AdvancedInterpolator.anisotropicDiffusionInterpolation`:
a bicubic seed refined by 10 diffusion passes with `κ = 30`, `γ = 0.1`. -/
noncomputable def anisotropicDiffusionInterpolation
    (sourceRegions : List (List ℕ)) (targetRegion : Region) : List ℕ :=
  (fun b => applyAnisotropicDiffusion b targetRegion.width.toNat
    targetRegion.height.toNat 30 0.1)^[10]
    (bicubicInterpolation sourceRegions targetRegion)

/-- The four interpolation method tags. -/
inductive InterpolationMethod where
  | bicubic
  | lanczos
  | edgeDirected
  | anisotropic
deriving DecidableEq, Repr

/-- Embedding of `AdvancedInterpolator.interpolateWithEdgePreservation`: the
dispatcher throws `No source regions provided for interpolation` for an
empty source list BEFORE reaching any per-method routine, then dispatches on
the method tag. -/
noncomputable def interpolateWithEdgePreservation
    (sourceRegions : List (List ℕ)) (targetRegion : Region)
    (method : InterpolationMethod) : Except String (List ℕ) :=
  if sourceRegions = [] then
    Except.error "No source regions provided for interpolation"
  else
    Except.ok (match method with
      | InterpolationMethod.bicubic =>
          bicubicInterpolation sourceRegions targetRegion
      | InterpolationMethod.lanczos =>
          lanczosInterpolation sourceRegions targetRegion
      | InterpolationMethod.edgeDirected =>
          edgeDirectedInterpolation sourceRegions targetRegion
      | InterpolationMethod.anisotropic =>
          anisotropicDiffusionInterpolation sourceRegions targetRegion)

/-- C6 counterexample: called with an empty source list for a 2×2 target and
the bicubic method, `interpolateWithEdgePreservation` fails with the
`No source regions provided for interpolation` error instead of returning
the claimed neutral-gray buffer. -/
theorem C6_empty_sources_error :
    interpolateWithEdgePreservation [] ⟨0, 0, 2, 2⟩
        InterpolationMethod.bicubic =
      Except.error "No source regions provided for interpolation" := by
  simp [interpolateWithEdgePreservation]

/-- Reading any in-bounds index of an all-128 buffer yields 128. -/
lemma bufGet_replicate (n j : ℕ) (h : j < n) :
    bufGet (List.replicate n 128) (j : ℤ) = 128 := by
  unfold bufGet
  rw [if_pos (by positivity)]
  rw [Int.toNat_natCast, List.getD_eq_getElem _ _ (by simpa using h)]
  simp

/-- Flattened RGB index bound. -/
lemma flat_idx_lt (w h x y c : ℕ) (hx : x < w) (hy : y < h) (hc : c < 3) :
    (y * w + x) * 3 + c < w * h * 3 := by
  have h1 : y * w + x < h * w := by
    have hyw : y * w ≤ (h - 1) * w := Nat.mul_le_mul_right w (by omega)
    have : (h - 1) * w + w = h * w := by
      have : h - 1 + 1 = h := by omega
      calc (h - 1) * w + w = (h - 1 + 1) * w := by ring
        _ = h * w := by rw [this]
    omega
  calc (y * w + x) * 3 + c < (y * w + x) * 3 + 3 := by omega
    _ = (y * w + x + 1) * 3 := by ring
    _ ≤ h * w * 3 := by
        have : y * w + x + 1 ≤ h * w := h1
        exact Nat.mul_le_mul_right 3 this
    _ = w * h * 3 := by ring

/-- A constant all-128 byte buffer is a fixed point of one anisotropic
diffusion pass: interior gradients vanish, so interior floats stay at 128,
and border floats stay 0 and fall back to the input byte. -/
lemma applyAnisotropicDiffusion_gray (w h : ℕ) (kappa gamma : ℝ) :
    applyAnisotropicDiffusion (List.replicate (w * h * 3) 128) w h
        kappa gamma =
      List.replicate (w * h * 3) 128 := by
  apply List.ext_getElem
  · simp [applyAnisotropicDiffusion]
  intro i h1 h2
  have hi : i < w * h * 3 := by simpa using h2
  simp only [applyAnisotropicDiffusion, List.getElem_map, List.getElem_range,
    List.getElem_replicate]
  set x : ℕ := (i / 3) % w with hxdef
  set y : ℕ := (i / 3) / w with hydef
  set c : ℕ := i % 3 with hcdef
  have hc3 : c < 3 := Nat.mod_lt _ (by norm_num)
  by_cases hint : 1 ≤ (x : ℤ) ∧ (x : ℤ) < (w : ℤ) - 1 ∧
      1 ≤ (y : ℤ) ∧ (y : ℤ) < (h : ℤ) - 1
  · obtain ⟨hx1, hx2, hy1, hy2⟩ := hint
    have hxn1 : 1 ≤ x := by exact_mod_cast hx1
    have hxn2 : x + 1 < w := by omega
    have hyn1 : 1 ≤ y := by exact_mod_cast hy1
    have hyn2 : y + 1 < h := by omega
    have hval : diffusedVal (List.replicate (w * h * 3) 128) w h kappa gamma
        x y c = 128 := by
      unfold diffusedVal
      rw [if_pos ⟨hx1, hx2, hy1, hy2⟩]
      have eup : (((y : ℤ) - 1) * w + x) * 3 + c =
          (((y - 1) * w + x) * 3 + c : ℕ) := by push_cast [hyn1]; ring
      have edown : (((y : ℤ) + 1) * w + x) * 3 + c =
          (((y + 1) * w + x) * 3 + c : ℕ) := by push_cast; ring
      have eleft : ((y : ℤ) * w + ((x : ℤ) - 1)) * 3 + c =
          ((y * w + (x - 1)) * 3 + c : ℕ) := by push_cast [hxn1]; ring
      have eright : ((y : ℤ) * w + ((x : ℤ) + 1)) * 3 + c =
          ((y * w + (x + 1)) * 3 + c : ℕ) := by push_cast; ring
      have ecen : ((y : ℤ) * w + x) * 3 + c =
          ((y * w + x) * 3 + c : ℕ) := by push_cast; ring
      rw [eup, edown, eleft, eright, ecen,
        bufGet_replicate _ _ (flat_idx_lt w h x (y - 1) c (by omega) (by omega) hc3),
        bufGet_replicate _ _ (flat_idx_lt w h x (y + 1) c (by omega) (by omega) hc3),
        bufGet_replicate _ _ (flat_idx_lt w h (x - 1) y c (by omega) (by omega) hc3),
        bufGet_replicate _ _ (flat_idx_lt w h (x + 1) y c (by omega) (by omega) hc3),
        bufGet_replicate _ _ (flat_idx_lt w h x y c (by omega) (by omega) hc3)]
      simp only [List.map_cons, List.map_nil, List.sum_cons, List.sum_nil,
        sub_self, mul_zero, add_zero]
    rw [hval, if_neg (by norm_num)]
    norm_num [byteClampFloor]
    rfl
  · have hzero : diffusedVal (List.replicate (w * h * 3) 128) w h kappa gamma
        x y c = 0 := by
      unfold diffusedVal
      rw [if_neg hint]
    rw [hzero, if_pos rfl,
      List.getD_eq_getElem _ _ (by simpa using hi)]
    norm_num [byteClampFloor]
    rfl

/-- C6 (amended): for every target region and every method the entry point
`interpolateWithEdgePreservation` called with an empty source list raises
the no-source error rather than degrading; the neutral-gray degradation
lives one level down — each interpolation routine (`bicubicInterpolation`,
`lanczosInterpolation`, `edgeDirectedInterpolation`, and
`anisotropicDiffusionInterpolation` through its bicubic seed, of which the
gray buffer is a diffusion fixed point) returns a buffer of the target
region's size with every byte 128 when invoked directly with no sources. -/
theorem C6_gray_fill_in_methods_not_dispatcher :
    (∀ (targetRegion : Region) (method : InterpolationMethod),
      interpolateWithEdgePreservation [] targetRegion method =
        Except.error "No source regions provided for interpolation") ∧
    (∀ targetRegion : Region,
      bicubicInterpolation [] targetRegion =
        List.replicate
          (targetRegion.width.toNat * targetRegion.height.toNat * 3) 128) ∧
    (∀ targetRegion : Region,
      lanczosInterpolation [] targetRegion =
        List.replicate
          (targetRegion.width.toNat * targetRegion.height.toNat * 3) 128) ∧
    (∀ targetRegion : Region,
      edgeDirectedInterpolation [] targetRegion =
        List.replicate
          (targetRegion.width.toNat * targetRegion.height.toNat * 3) 128) ∧
    (∀ targetRegion : Region,
      anisotropicDiffusionInterpolation [] targetRegion =
        List.replicate
          (targetRegion.width.toNat * targetRegion.height.toNat * 3) 128) := by
  refine ⟨fun targetRegion method => ?_, fun targetRegion => ?_,
    fun targetRegion => ?_, fun targetRegion => ?_, fun targetRegion => ?_⟩
  · simp [interpolateWithEdgePreservation]
  · simp [bicubicInterpolation]
  · simp [lanczosInterpolation]
  · simp [edgeDirectedInterpolation]
  · unfold anisotropicDiffusionInterpolation
    rw [show bicubicInterpolation [] targetRegion =
        List.replicate
          (targetRegion.width.toNat * targetRegion.height.toNat * 3) 128 from
      by simp [bicubicInterpolation]]
    have hfix : (fun b => applyAnisotropicDiffusion b targetRegion.width.toNat
        targetRegion.height.toNat 30 0.1)
          (List.replicate
            (targetRegion.width.toNat * targetRegion.height.toNat * 3) 128) =
        List.replicate
          (targetRegion.width.toNat * targetRegion.height.toNat * 3) 128 :=
      applyAnisotropicDiffusion_gray targetRegion.width.toNat
        targetRegion.height.toNat 30 0.1
    exact @Function.iterate_fixed _
      (fun b => applyAnisotropicDiffusion b targetRegion.width.toNat
        targetRegion.height.toNat 30 0.1)
      (List.replicate
        (targetRegion.width.toNat * targetRegion.height.toNat * 3) 128)
      hfix 10

/-! ### Quality metrics (InpaintingEngine.computePSNR / computeSSIM /
detectArtifacts) -/

/-- Byte read `data[idx]` at a signed index, as an integer, 0 outside the
buffer. -/
def bufByte (data : List ℕ) (idx : ℤ) : ℤ :=
  if 0 ≤ idx then (data.getD idx.toNat 0 : ℤ) else 0

/-- Mean squared error over the common prefix of the two buffers, as computed
by the loop of `InpaintingEngine.computePSNR`. -/
def computeMSE (original processed : List ℕ) : ℚ :=
  let length := min original.length processed.length
  (∑ i ∈ Finset.range length,
    ((original.getD i 0 : ℚ) - (processed.getD i 0 : ℚ)) ^ 2) / length

/-- Embedding of `InpaintingEngine.computePSNR`:
`mse > 0 ? 10·log10(255²/mse) : 100`. -/
noncomputable def computePSNR (original processed : List ℕ) : ℝ :=
  if 0 < computeMSE original processed then
    10 * Real.logb 10 ((255 * 255) / ((computeMSE original processed : ℚ) : ℝ))
  else 100

/-- Embedding of `InpaintingEngine.extractWindow`: the 11×11 window of bytes
at `(x, y)` read row-major from a buffer of row stride `width`. -/
def extractWindow (buffer : List ℕ) (width x y : ℕ) : List ℕ :=
  (List.range 11).flatMap fun wy =>
    (List.range 11).map fun wx =>
      buffer.getD ((y + wy) * width + (x + wx)) 0

/-- Embedding of `InpaintingEngine.computeWindowSSIM` with `k1 = 0.01`,
`k2 = 0.03`, `L = 255` (the constants passed by `computeSSIM`). -/
def computeWindowSSIM (window1 window2 : List ℕ) : ℚ :=
  let n := window1.length
  let sum1 := ∑ i ∈ Finset.range n, (window1.getD i 0 : ℚ)
  let sum2 := ∑ i ∈ Finset.range n, (window2.getD i 0 : ℚ)
  let sum1Sq := ∑ i ∈ Finset.range n, (window1.getD i 0 : ℚ) ^ 2
  let sum2Sq := ∑ i ∈ Finset.range n, (window2.getD i 0 : ℚ) ^ 2
  let sumProduct := ∑ i ∈ Finset.range n,
    (window1.getD i 0 : ℚ) * (window2.getD i 0 : ℚ)
  let mu1 := sum1 / n
  let mu2 := sum2 / n
  let sigma1Sq := sum1Sq / n - mu1 * mu1
  let sigma2Sq := sum2Sq / n - mu2 * mu2
  let sigma12 := sumProduct / n - mu1 * mu2
  let c1 := (0.01 * 255 : ℚ) * (0.01 * 255)
  let c2 := (0.03 * 255 : ℚ) * (0.03 * 255)
  ((2 * mu1 * mu2 + c1) * (2 * sigma12 + c2)) /
    ((mu1 * mu1 + mu2 * mu2 + c1) * (sigma1Sq + sigma2Sq + c2))

/-- Embedding of `InpaintingEngine.computeSSIM`: the average of
`computeWindowSSIM` over non-overlapping 11×11 windows tiled from (0,0)
(1 when no window fits). -/
def computeSSIM (original processed : List ℕ) (width height : ℕ) : ℚ :=
  let cy := if height < 11 then 0 else (height - 11) / 11 + 1
  let cx := if width < 11 then 0 else (width - 11) / 11 + 1
  let total := ∑ j ∈ Finset.range cy, ∑ i ∈ Finset.range cx,
    computeWindowSSIM (extractWindow original width (11 * i) (11 * j))
      (extractWindow processed width (11 * i) (11 * j))
  if 0 < cy * cx then total / (cy * cx) else 1

/-- Embedding of `InpaintingEngine.detectArtifacts`: the fraction of
channel samples inside the target region whose right- or down-neighbor
differs by more than 50. -/
def detectArtifacts (processed : List ℕ) (region : Region) (width : ℕ) : ℚ :=
  let score : ℕ :=
    ∑ y ∈ Finset.Ico region.y (region.y + region.height - 1),
      ∑ x ∈ Finset.Ico region.x (region.x + region.width - 1),
        ∑ c ∈ Finset.range 3,
          if 50 < |bufByte processed ((y * width + x) * 3 + c) -
                bufByte processed ((y * width + x + 1) * 3 + c)| ∨
             50 < |bufByte processed ((y * width + x) * 3 + c) -
                bufByte processed (((y + 1) * width + x) * 3 + c)| then 1
          else 0
  (score : ℚ) / ((region.width * region.height * 3 : ℤ) : ℚ)

/-- A default-0 read from a buffer of bytes ≤ 255 is ≤ 255. -/
lemma getD_le_of_forall_le (l : List ℕ) (h : ∀ v ∈ l, v ≤ 255) (i : ℕ) :
    l.getD i 0 ≤ 255 := by
  by_cases hi : i < l.length
  · rw [List.getD_eq_getElem _ _ hi]
    exact h _ (List.getElem_mem hi)
  · rw [List.getD_eq_default _ _ (by omega)]
    omega

/-- The mean squared error of two byte buffers is at most `255² = 65025`. -/
lemma computeMSE_le (original processed : List ℕ)
    (ho : ∀ v ∈ original, v ≤ 255) (hp : ∀ v ∈ processed, v ≤ 255) :
    computeMSE original processed ≤ 65025 := by
  unfold computeMSE
  rcases Nat.eq_zero_or_pos (min original.length processed.length) with h0 | hpos
  · rw [h0]
    norm_num
  · rw [div_le_iff₀ (by exact_mod_cast hpos)]
    calc (∑ i ∈ Finset.range (min original.length processed.length),
          ((original.getD i 0 : ℚ) - (processed.getD i 0 : ℚ)) ^ 2) ≤
        ∑ _i ∈ Finset.range (min original.length processed.length),
          (65025 : ℚ) := by
          apply Finset.sum_le_sum
          intro i _
          have h1 : (original.getD i 0 : ℚ) ≤ 255 := by
            exact_mod_cast getD_le_of_forall_le original ho i
          have h2 : (processed.getD i 0 : ℚ) ≤ 255 := by
            exact_mod_cast getD_le_of_forall_le processed hp i
          have h3 : (0 : ℚ) ≤ (original.getD i 0 : ℚ) := by positivity
          have h4 : (0 : ℚ) ≤ (processed.getD i 0 : ℚ) := by positivity
          nlinarith
      _ = 65025 * ((min original.length processed.length : ℕ) : ℚ) := by
          rw [Finset.sum_const, Finset.card_range, nsmul_eq_mul]
          ring

/-- C8 part: `computePSNR` is nonnegative on byte buffers — the MSE never
exceeds 255², so `255²/mse ≥ 1` and the base-10 log is nonnegative, and the
zero-MSE branch returns 100. -/
lemma computePSNR_nonneg (original processed : List ℕ)
    (ho : ∀ v ∈ original, v ≤ 255) (hp : ∀ v ∈ processed, v ≤ 255) :
    0 ≤ computePSNR original processed := by
  unfold computePSNR
  split
  · rename_i hm
    apply mul_nonneg (by norm_num)
    apply Real.logb_nonneg (by norm_num)
    rw [le_div_iff₀ (by exact_mod_cast hm), one_mul]
    have := computeMSE_le original processed ho hp
    calc ((computeMSE original processed : ℚ) : ℝ) ≤ ((65025 : ℚ) : ℝ) := by
          exact_mod_cast this
      _ = 255 * 255 := by norm_num
  · norm_num

/-- Arithmetic core of the per-window SSIM bound: the two-factor SSIM
numerator never exceeds its denominator given the moment inequalities. -/
lemma ssim_core (mu1 mu2 u v w c1 c2 : ℚ) (hc1 : 0 < c1) (hc2 : 0 < c2)
    (hmu1 : 0 ≤ mu1) (hmu2 : 0 ≤ mu2) (hu : 0 ≤ u) (hv : 0 ≤ v)
    (hw : 2 * w ≤ u + v) :
    ((2 * mu1 * mu2 + c1) * (2 * w + c2)) /
      ((mu1 * mu1 + mu2 * mu2 + c1) * (u + v + c2)) ≤ 1 := by
  have hA : 0 < mu1 * mu1 + mu2 * mu2 + c1 := by positivity
  have hB : 0 < u + v + c2 := by positivity
  rw [div_le_one (by positivity)]
  have hP : 2 * mu1 * mu2 + c1 ≤ mu1 * mu1 + mu2 * mu2 + c1 := by
    nlinarith [sq_nonneg (mu1 - mu2)]
  have hP0 : 0 ≤ 2 * mu1 * mu2 + c1 := by positivity
  rcases le_or_lt (2 * w + c2) 0 with h | h
  · calc (2 * mu1 * mu2 + c1) * (2 * w + c2) ≤ 0 :=
        mul_nonpos_of_nonneg_of_nonpos hP0 h
      _ ≤ (mu1 * mu1 + mu2 * mu2 + c1) * (u + v + c2) := by positivity
  · calc (2 * mu1 * mu2 + c1) * (2 * w + c2) ≤
        (mu1 * mu1 + mu2 * mu2 + c1) * (2 * w + c2) :=
          mul_le_mul_of_nonneg_right hP h.le
      _ ≤ (mu1 * mu1 + mu2 * mu2 + c1) * (u + v + c2) :=
          mul_le_mul_of_nonneg_left (by linarith) hA.le

/-- Every 11×11 window SSIM value is at most 1 (Cauchy–Schwarz on the window
sums). -/
lemma computeWindowSSIM_le_one (window1 window2 : List ℕ) :
    computeWindowSSIM window1 window2 ≤ 1 := by
  simp only [computeWindowSSIM]
  rcases Nat.eq_zero_or_pos window1.length with hn | hn
  · rw [hn]
    norm_num
  · have hnq : (0 : ℚ) < (window1.length : ℚ) := by exact_mod_cast hn
    have hs1nn : (0 : ℚ) ≤ ∑ i ∈ Finset.range window1.length,
        (window1.getD i 0 : ℚ) := by positivity
    have hs2nn : (0 : ℚ) ≤ ∑ i ∈ Finset.range window1.length,
        (window2.getD i 0 : ℚ) := by positivity
    have hcs1 : (∑ i ∈ Finset.range window1.length,
        (window1.getD i 0 : ℚ)) ^ 2 ≤
        (Finset.range window1.length).card *
          ∑ i ∈ Finset.range window1.length, (window1.getD i 0 : ℚ) ^ 2 :=
      sq_sum_le_card_mul_sum_sq
    have hcs2 : (∑ i ∈ Finset.range window1.length,
        (window2.getD i 0 : ℚ)) ^ 2 ≤
        (Finset.range window1.length).card *
          ∑ i ∈ Finset.range window1.length, (window2.getD i 0 : ℚ) ^ 2 :=
      sq_sum_le_card_mul_sum_sq
    have hcsd : (∑ i ∈ Finset.range window1.length,
        ((window1.getD i 0 : ℚ) - (window2.getD i 0 : ℚ))) ^ 2 ≤
        (Finset.range window1.length).card *
          ∑ i ∈ Finset.range window1.length,
            ((window1.getD i 0 : ℚ) - (window2.getD i 0 : ℚ)) ^ 2 :=
      sq_sum_le_card_mul_sum_sq
    rw [Finset.card_range] at hcs1 hcs2 hcsd
    rw [Finset.sum_sub_distrib] at hcsd
    have hexp : ∑ i ∈ Finset.range window1.length,
        ((window1.getD i 0 : ℚ) - (window2.getD i 0 : ℚ)) ^ 2 =
        (∑ i ∈ Finset.range window1.length, (window1.getD i 0 : ℚ) ^ 2) -
          2 * (∑ i ∈ Finset.range window1.length,
            (window1.getD i 0 : ℚ) * (window2.getD i 0 : ℚ)) +
          ∑ i ∈ Finset.range window1.length, (window2.getD i 0 : ℚ) ^ 2 := by
      have hterm : ∀ i ∈ Finset.range window1.length,
          ((window1.getD i 0 : ℚ) - (window2.getD i 0 : ℚ)) ^ 2 =
            (window1.getD i 0 : ℚ) ^ 2 -
              2 * ((window1.getD i 0 : ℚ) * (window2.getD i 0 : ℚ)) +
              (window2.getD i 0 : ℚ) ^ 2 := fun i _ => by ring
      rw [Finset.sum_congr rfl hterm, Finset.sum_add_distrib,
        Finset.sum_sub_distrib, ← Finset.mul_sum]
    rw [hexp] at hcsd
    set N : ℚ := (window1.length : ℚ)
    set s1 : ℚ := ∑ i ∈ Finset.range window1.length, (window1.getD i 0 : ℚ)
      with hs1def
    set s2 : ℚ := ∑ i ∈ Finset.range window1.length, (window2.getD i 0 : ℚ)
      with hs2def
    set q1 : ℚ := ∑ i ∈ Finset.range window1.length,
      (window1.getD i 0 : ℚ) ^ 2 with hq1def
    set q2 : ℚ := ∑ i ∈ Finset.range window1.length,
      (window2.getD i 0 : ℚ) ^ 2 with hq2def
    set sp : ℚ := ∑ i ∈ Finset.range window1.length,
      (window1.getD i 0 : ℚ) * (window2.getD i 0 : ℚ) with hspdef
    have hu : (0 : ℚ) ≤ q1 / N - s1 / N * (s1 / N) := by
      have hid : q1 / N - s1 / N * (s1 / N) = (N * q1 - s1 ^ 2) / (N * N) := by
        field_simp
        ring
      rw [hid]
      apply div_nonneg _ (by positivity)
      nlinarith
    have hv : (0 : ℚ) ≤ q2 / N - s2 / N * (s2 / N) := by
      have hid : q2 / N - s2 / N * (s2 / N) = (N * q2 - s2 ^ 2) / (N * N) := by
        field_simp
        ring
      rw [hid]
      apply div_nonneg _ (by positivity)
      nlinarith
    have hw : 2 * (sp / N - s1 / N * (s2 / N)) ≤
        (q1 / N - s1 / N * (s1 / N)) + (q2 / N - s2 / N * (s2 / N)) := by
      have hid : (q1 / N - s1 / N * (s1 / N)) + (q2 / N - s2 / N * (s2 / N)) -
          2 * (sp / N - s1 / N * (s2 / N)) =
          (N * (q1 - 2 * sp + q2) - (s1 - s2) ^ 2) / (N * N) := by
        field_simp
        ring
      have hnum : (0 : ℚ) ≤ N * (q1 - 2 * sp + q2) - (s1 - s2) ^ 2 := by
        nlinarith
      have := div_nonneg hnum (by positivity : (0 : ℚ) ≤ N * N)
      linarith [hid ▸ this]
    exact ssim_core (s1 / N) (s2 / N)
      (q1 / N - s1 / N * (s1 / N)) (q2 / N - s2 / N * (s2 / N))
      (sp / N - s1 / N * (s2 / N)) _ _ (by norm_num) (by norm_num)
      (div_nonneg hs1nn hnq.le) (div_nonneg hs2nn hnq.le) hu hv hw

/-- C8 part: the whole-image SSIM never exceeds 1. -/
lemma computeSSIM_le_one (original processed : List ℕ) (width height : ℕ) :
    computeSSIM original processed width height ≤ 1 := by
  simp only [computeSSIM]
  set cy : ℕ := if height < 11 then 0 else (height - 11) / 11 + 1 with hcy
  set cx : ℕ := if width < 11 then 0 else (width - 11) / 11 + 1 with hcx
  split
  · rename_i hpos
    have hposq : (0 : ℚ) < (cy : ℚ) * (cx : ℚ) := by
      have : (0 : ℚ) < ((cy * cx : ℕ) : ℚ) := by exact_mod_cast hpos
      push_cast at this
      exact this
    rw [div_le_one hposq]
    calc (∑ j ∈ Finset.range cy, ∑ i ∈ Finset.range cx,
          computeWindowSSIM
            (extractWindow original width (11 * i) (11 * j))
            (extractWindow processed width (11 * i) (11 * j))) ≤
        ∑ _j ∈ Finset.range cy, ∑ _i ∈ Finset.range cx, (1 : ℚ) := by
          apply Finset.sum_le_sum
          intro j _
          apply Finset.sum_le_sum
          intro i _
          exact computeWindowSSIM_le_one _ _
      _ = (cy : ℚ) * (cx : ℚ) := by
          simp [Finset.sum_const, Finset.card_range, nsmul_eq_mul]
  · exact le_refl 1

/-- C8 part: the artifact level is a ratio of a count to the number of
channel samples in the region and lies in `[0, 1]` for positive extents. -/
lemma detectArtifacts_bounds (processed : List ℕ) (region : Region)
    (width : ℕ) (hw : 0 < region.width) (hh : 0 < region.height) :
    0 ≤ detectArtifacts processed region width ∧
      detectArtifacts processed region width ≤ 1 := by
  have hden : (0 : ℤ) < region.width * region.height * 3 :=
    mul_pos (mul_pos hw hh) (by norm_num)
  have hdenq : (0 : ℚ) < ((region.width * region.height * 3 : ℤ) : ℚ) := by
    exact_mod_cast hden
  unfold detectArtifacts
  constructor
  · exact div_nonneg (by positivity) hdenq.le
  · rw [div_le_one hdenq]
    have hscore : (∑ y ∈ Finset.Ico region.y (region.y + region.height - 1),
        ∑ x ∈ Finset.Ico region.x (region.x + region.width - 1),
          ∑ c ∈ Finset.range 3,
            (if 50 < |bufByte processed ((y * width + x) * 3 + c) -
                  bufByte processed ((y * width + x + 1) * 3 + c)| ∨
               50 < |bufByte processed ((y * width + x) * 3 + c) -
                  bufByte processed (((y + 1) * width + x) * 3 + c)| then 1
            else 0)) ≤
        (region.height - 1).toNat * ((region.width - 1).toNat * 3) := by
      calc _ ≤ ∑ _y ∈ Finset.Ico region.y (region.y + region.height - 1),
            ∑ _x ∈ Finset.Ico region.x (region.x + region.width - 1),
              ∑ _c ∈ Finset.range 3, 1 := by
            apply Finset.sum_le_sum
            intro y _
            apply Finset.sum_le_sum
            intro x _
            apply Finset.sum_le_sum
            intro c _
            split <;> omega
        _ = (region.height - 1).toNat * ((region.width - 1).toNat * 3) := by
            simp [Finset.sum_const, Int.card_Ico]
            congr 1 <;> [skip; congr 1] <;> omega
    calc ((∑ y ∈ Finset.Ico region.y (region.y + region.height - 1),
          ∑ x ∈ Finset.Ico region.x (region.x + region.width - 1),
            ∑ c ∈ Finset.range 3,
              (if 50 < |bufByte processed ((y * width + x) * 3 + c) -
                    bufByte processed ((y * width + x + 1) * 3 + c)| ∨
                 50 < |bufByte processed ((y * width + x) * 3 + c) -
                    bufByte processed (((y + 1) * width + x) * 3 + c)| then 1
              else 0) : ℕ) : ℚ) ≤
        ((region.height - 1).toNat * ((region.width - 1).toNat * 3) : ℕ) := by
          exact_mod_cast hscore
      _ ≤ ((region.width * region.height * 3 : ℤ) : ℚ) := by
          have h1 : ((region.height - 1).toNat : ℤ) = region.height - 1 :=
            Int.toNat_of_nonneg (by omega)
          have h2 : ((region.width - 1).toNat : ℤ) = region.width - 1 :=
            Int.toNat_of_nonneg (by omega)
          have : (((region.height - 1).toNat * ((region.width - 1).toNat * 3)
              : ℕ) : ℤ) ≤ region.width * region.height * 3 := by
            push_cast [h1, h2]
            nlinarith
          exact_mod_cast this

/-- An 11×11 image whose bytes alternate 0/255. -/
def antiCorrOriginal : List ℕ :=
  (List.range 121).map fun i => if i % 2 = 0 then 0 else 255

/-- The byte-wise complement of `antiCorrOriginal`. -/
def antiCorrProcessed : List ℕ :=
  (List.range 121).map fun i => if i % 2 = 0 then 255 else 0

set_option maxRecDepth 4000 in
/-- C8 counterexample: on an 11×11 image whose processed buffer is the
byte-complement of the original (perfectly anti-correlated content), the
single 11×11 SSIM window has negative covariance and `computeSSIM` returns a
negative value, violating the claimed `0 ≤ ssim`. -/
theorem C8_ssim_negative_counterexample :
    computeSSIM antiCorrOriginal antiCorrProcessed 11 11 < 0 := by
  have hred : computeSSIM antiCorrOriginal antiCorrProcessed 11 11 =
      computeWindowSSIM (extractWindow antiCorrOriginal 11 0 0)
        (extractWindow antiCorrProcessed 11 0 0) := by
    unfold computeSSIM
    norm_num [Finset.sum_range_one]
  rw [hred]
  have hlen : (extractWindow antiCorrOriginal 11 0 0).length = 121 := by decide
  have h1 : (∑ i ∈ Finset.range 121,
      ((extractWindow antiCorrOriginal 11 0 0).getD i 0 : ℚ)) = 15300 := by
    exact_mod_cast (by decide : (∑ i ∈ Finset.range 121,
      (extractWindow antiCorrOriginal 11 0 0).getD i 0) = 15300)
  have h2 : (∑ i ∈ Finset.range 121,
      ((extractWindow antiCorrProcessed 11 0 0).getD i 0 : ℚ)) = 15555 := by
    exact_mod_cast (by decide : (∑ i ∈ Finset.range 121,
      (extractWindow antiCorrProcessed 11 0 0).getD i 0) = 15555)
  have h3 : (∑ i ∈ Finset.range 121,
      ((extractWindow antiCorrOriginal 11 0 0).getD i 0 : ℚ) ^ 2) =
      3901500 := by
    exact_mod_cast (by decide : (∑ i ∈ Finset.range 121,
      ((extractWindow antiCorrOriginal 11 0 0).getD i 0) ^ 2) = 3901500)
  have h4 : (∑ i ∈ Finset.range 121,
      ((extractWindow antiCorrProcessed 11 0 0).getD i 0 : ℚ) ^ 2) =
      3966525 := by
    exact_mod_cast (by decide : (∑ i ∈ Finset.range 121,
      ((extractWindow antiCorrProcessed 11 0 0).getD i 0) ^ 2) = 3966525)
  have h5 : (∑ i ∈ Finset.range 121,
      ((extractWindow antiCorrOriginal 11 0 0).getD i 0 : ℚ) *
        ((extractWindow antiCorrProcessed 11 0 0).getD i 0 : ℚ)) = 0 := by
    exact_mod_cast (by decide : (∑ i ∈ Finset.range 121,
      (extractWindow antiCorrOriginal 11 0 0).getD i 0 *
        (extractWindow antiCorrProcessed 11 0 0).getD i 0) = 0)
  simp only [computeWindowSSIM]
  rw [hlen, h1, h2, h3, h4, h5]
  norm_num

/-- C8 (amended): for every successful run the quality metrics satisfy
`psnr ≥ 0`, `ssim ≤ 1` and `0 ≤ artifactLevel ≤ 1`; but `ssim` has no lower
bound at 0 — anti-correlated windows drive it negative (SSIM ranges in
`[-1, 1]`), so only the upper bound of the claimed ssim range holds. -/
theorem C8_metric_ranges (original processed : List ℕ) (region : Region)
    (width height : ℕ)
    (ho : ∀ v ∈ original, v ≤ 255) (hp : ∀ v ∈ processed, v ≤ 255)
    (hw : 0 < region.width) (hh : 0 < region.height) :
    0 ≤ computePSNR original processed ∧
    computeSSIM original processed width height ≤ 1 ∧
    0 ≤ detectArtifacts processed region width ∧
    detectArtifacts processed region width ≤ 1 :=
  ⟨computePSNR_nonneg original processed ho hp,
    computeSSIM_le_one original processed width height,
    (detectArtifacts_bounds processed region width hw hh).1,
    (detectArtifacts_bounds processed region width hw hh).2⟩

/-- C8 amended-claim witness at a concrete one-pixel run. -/
theorem C8_metric_ranges_witness :
    0 ≤ computePSNR [0, 10, 20] [255, 10, 20] ∧
    computeSSIM [0, 10, 20] [255, 10, 20] 1 1 ≤ 1 ∧
    0 ≤ detectArtifacts [255, 10, 20] ⟨0, 0, 1, 1⟩ 1 ∧
    detectArtifacts [255, 10, 20] ⟨0, 0, 1, 1⟩ 1 ≤ 1 :=
  C8_metric_ranges [0, 10, 20] [255, 10, 20] ⟨0, 0, 1, 1⟩ 1 1
    (by decide) (by decide) (by decide) (by decide)

end PixelPress
